import Mathlib

/-!
Shallow embedding of the Provider Orchestration and Data Consolidation Engine
(`healthDataService.ts`, `healthProviderManager.ts`, `healthData.types.ts`,
`healthDataErrors.ts`) of the trackle health-data repository, together with
proofs settling the frozen claims about it.

Conventions of the embedding:
* JS `Date`/timestamps are modelled as `Int` (milliseconds since epoch); the
  identity re-wrapping `new Date(point.start)` in `mergeDataPoints` is the
  identity on timestamps and is therefore dropped.
* A thrown JS exception is either a typed `HealthDataError` (with its kind tag)
  or an untyped plain `Error`; fallible code returns `Except Thrown _`.
* JS `Array.prototype.sort` with comparator `(a, b) => a.start - b.start` is a
  stable sort by `start`; since a stable sort's output is uniquely determined,
  it is embedded as the stable insertion sort `sortByStart` below.
* `merged.find(pred)` followed by `merged[merged.indexOf(found)] = point` is
  replacement of the first predicate-satisfying element: the spread-copied
  points are pairwise distinct object references, so `indexOf` locates exactly
  the position at which `find` succeeded.  This is `replaceFirst` below.
* JS `Map` and `Set` preserve insertion order; they are embedded as
  insertion-ordered association lists / lists.
-/

namespace HealthData

/-- Error kinds of `createTrackleError('HealthData', [...])` in
`healthDataErrors.ts`.  Note that the list in the source has no
`DUPLICATE_PROVIDER` kind. -/
inductive ErrKind where
  | PROVIDER_NOT_FOUND
  | PROVIDER_INIT_FAILED
  | PERMISSION_DENIED
  | DATA_FETCH_ERROR
  | INVALID_METRIC
  | PROVIDER_UNAVAILABLE
  | SUBSCRIPTION_ERROR
  | CLEANUP_ERROR
  | POLLING_ERROR
  | PRIORITY_ERROR
  deriving DecidableEq, Repr

/-- A thrown JS exception: a typed `HealthDataError` (i.e. a `TrackleError`,
recognised by `TrackleError.isTrackleError`) with its kind, or an untyped plain
`Error`. -/
inductive Thrown where
  | typed (k : ErrKind)
  | untyped
  deriving DecidableEq, Repr

/-- `HealthMetric` — the closed enumeration of tracked metrics
(`healthData.types.ts`, keys of `HealthMetricValueMap`). -/
inductive Metric where
  | sleep
  | illness
  | stress
  deriving DecidableEq, Repr

/-- A `DataPoint` (`SleepDataPoint` / `IllnessDataPoint` / `StressDataPoint`):
every variant carries `start`, `end` and `source`; the variant-specific fields
(sleep stages, illness type, severity) are abstracted into `payload`, which
`mergeDataPoints` never inspects (it is generic over the metric `M`). -/
structure DataPoint (α : Type) where
  start : Int
  «end» : Int
  source : String
  payload : α
  deriving DecidableEq, Repr

/-- The `type` field of a `HealthMetricSample`. -/
inductive SampleType where
  | quantity
  | category
  deriving DecidableEq, Repr

/-- `HealthMetricSample<M>`: `{ value, type, timestamp }`. -/
structure Sample (α : Type) where
  value : List (DataPoint α)
  type : SampleType
  timestamp : Int
  deriving DecidableEq, Repr

/-- Outcome of invoking a stored cleanup function (a realtime-subscription
cleanup handle, or a provider's `cleanUp()`): it returns normally, throws an
untyped error, or throws a typed `TrackleError`. -/
inductive HandleOutcome where
  | ok
  | failUntyped
  | failTyped (k : ErrKind)
  deriving DecidableEq, Repr

/-- A `HealthDataProvider` together with the outcomes of its effectful
capability methods (`isAvailable`, `getData`, `onData`, `cleanUp`), which the
manager consumes but does not implement. -/
structure Provider (α : Type) where
  id : String
  name : String
  priority : Int
  metrics : List Metric
  pollingSupported : Bool
  minIntervalMs : Nat
  realtimeSupported : Bool
  available : Bool
  getData : Metric → Except Thrown (Sample α)
  onDataResult : Except Thrown HandleOutcome
  cleanUpOutcome : HandleOutcome

/-- The mutable maps owned by `HealthProviderManager`: `providers` (a `Map`
keyed by `provider.id`, in insertion order), `providerSubscriptions` (id →
stored cleanup handle, modelled by the outcome invoking it would have), and the
keys of `pollingIntervals` (strings `` `${id}-${metric}` ``). -/
structure ManagerState (α : Type) where
  providers : List (Provider α)
  subscriptions : List (String × HandleOutcome)
  pollingKeys : List String

/-- `Map.get` on an insertion-ordered association list. -/
def lookupKey (k : String) : List (String × β) → Option β
  | [] => none
  | (k', v) :: r => if k' = k then some v else lookupKey k r

/-- `Map.set`: replaces in place if the key exists, appends otherwise. -/
def setEntry (k : String) (v : β) : List (String × β) → List (String × β)
  | [] => [(k, v)]
  | (k', v') :: r => if k' = k then (k, v) :: r else (k', v') :: setEntry k v r

/-- `Map.delete`. -/
def eraseKey (k : String) : List (String × β) → List (String × β)
  | [] => []
  | (k', v') :: r => if k' = k then r else (k', v') :: eraseKey k r

/-- `this.providers.get(providerId)` (the map is keyed by `provider.id`). -/
def findProvider (st : ManagerState α) (pid : String) : Option (Provider α) :=
  st.providers.find? (fun p => p.id == pid)

/-- `initializeProviderStream` (`healthProviderManager.ts` 201-225): calls
`provider.onData` and stores the returned cleanup handle keyed by the provider
id; an untyped failure is wrapped as `SUBSCRIPTION_ERROR`, a typed one passes
through. -/
def initializeProviderStream (st : ManagerState α) (p : Provider α) :
    ManagerState α × Option Thrown :=
  match p.onDataResult with
  | .ok h => ({ st with subscriptions := setEntry p.id h st.subscriptions }, none)
  | .error (.typed k) => (st, some (.typed k))
  | .error .untyped => (st, some (.typed .SUBSCRIPTION_ERROR))

/-- `registerProvider` (`healthProviderManager.ts` 51-64): checks availability;
unavailable providers are silently skipped; an available provider whose id is
already registered makes it throw a plain untyped
`Error('Provider with id ... is already registered')`; otherwise the provider
is stored and, when it declares realtime support, its stream is started. -/
def registerProvider (st : ManagerState α) (p : Provider α) :
    ManagerState α × Option Thrown :=
  if p.available then
    if (findProvider st p.id).isSome then
      (st, some .untyped)
    else
      let st1 := { st with providers := st.providers ++ [p] }
      if p.realtimeSupported then initializeProviderStream st1 p else (st1, none)
  else (st, none)

/-- `key.startsWith(pre)`, computed on the underlying character lists. -/
def strStartsWith (k pre : String) : Bool :=
  pre.data.isPrefixOf k.data

/-- `stopPollingForProvider` (`healthProviderManager.ts` 187-194): clears and
removes every timer whose key starts with `` `${providerId}-` ``. -/
def stopPollingForProvider (keys : List String) (pid : String) : List String :=
  keys.filter (fun k => !(strStartsWith k (pid ++ "-")))

/-- The tail of `disableProvider` after the subscription-cleanup block: stop
polling for the id, then `await provider?.cleanUp()` (invoked only when the
provider is registered; its exceptions propagate unwrapped).  The `Nat`
component counts the `cleanUp()` invocations performed. -/
def disableTail (st : ManagerState α) (pid : String) :
    ManagerState α × Option Thrown × Nat :=
  let st2 := { st with pollingKeys := stopPollingForProvider st.pollingKeys pid }
  match st2.providers.find? (fun p => p.id == pid) with
  | some p =>
    match p.cleanUpOutcome with
    | .ok => (st2, none, 1)
    | .failUntyped => (st2, some .untyped, 1)
    | .failTyped k => (st2, some (.typed k), 1)
  | none => (st2, none, 0)

/-- `disableProvider` (`healthProviderManager.ts` 104-124): if a cleanup handle
is stored for the id, invoke it; on success delete it and continue; on failure
throw (`CLEANUP_ERROR` for untyped failures, the typed error unchanged) —
which exits the function before polling teardown and `cleanUp()`.  Returns the
resulting state, the raised error (if any), and the number of `cleanUp()`
invocations. -/
def disableProvider (st : ManagerState α) (pid : String) :
    ManagerState α × Option Thrown × Nat :=
  match lookupKey pid st.subscriptions with
  | some .ok =>
    disableTail { st with subscriptions := eraseKey pid st.subscriptions } pid
  | some .failUntyped => (st, some (.typed .CLEANUP_ERROR), 0)
  | some (.failTyped k) => (st, some (.typed k), 0)
  | none => disableTail st pid

/-- Stable insertion step for the stable sort by descending `priority`
(comparator `(a, b) => b.priority - a.priority`). -/
def insertByPriorityDesc (p : Provider α) : List (Provider α) → List (Provider α)
  | [] => [p]
  | q :: r =>
    if p.priority < q.priority then q :: insertByPriorityDesc p r else p :: q :: r

/-- Stable sort by descending priority, as `Array.prototype.sort` performs for
the comparator `(a, b) => b.priority - a.priority`. -/
def sortByPriorityDesc (l : List (Provider α)) : List (Provider α) :=
  l.foldr insertByPriorityDesc []

/-- `getProvidersForMetric` (`healthProviderManager.ts` 278-287): registered
providers that support the metric and are in the enabled set, sorted by
descending priority. -/
def getProvidersForMetric (st : ManagerState α) (enabled : List String) (m : Metric) :
    List (Provider α) :=
  sortByPriorityDesc
    (st.providers.filter (fun p => p.metrics.contains m && enabled.contains p.id))

/-- `getAllProviders` (`healthProviderManager.ts` 293-295): every registered
provider, regardless of enablement. -/
def getAllProviders (st : ManagerState α) : List (Provider α) :=
  st.providers

/-- One registered data listener, represented by the function invoked on a
notification (it returns `none` on normal completion and `some e` when it
throws `e`). -/
abbrev Listener (β E : Type) := β → Option E

/-- Helper for `notifyCallbacks`: invoke the listeners in order starting at
index `i`; record the indices invoked, and stop at the first listener that
throws (`for..of` has no try/catch around `callback(metric, data)` at
`healthProviderManager.ts` 250-254, so the exception aborts the loop). -/
def notifyFrom (x : β) (i : Nat) : List (Listener β E) → List Nat × Option E
  | [] => ([], none)
  | c :: cs =>
    match c x with
    | none =>
      let r := notifyFrom x (i + 1) cs
      (i :: r.1, r.2)
    | some e => ([i], some e)

/-- `notifyCallbacks` (`healthProviderManager.ts` 250-254): iterate the
listener set in insertion (registration) order, invoking each listener with the
new data.  Returns the indices of the listeners actually invoked, and the
exception that escaped (if any). -/
def notifyCallbacks (cbs : List (Listener β E)) (x : β) : List Nat × Option E :=
  notifyFrom x 0 cbs

/-- `hasValidData` (`healthProviderManager.ts` 304-307 and
`healthDataService.ts`): the sample's value array is non-empty. -/
def hasValidData (s : Sample α) : Bool :=
  !s.value.isEmpty

/-- One polling tick (`healthProviderManager.ts` 152-168): fetch, notify only
when `hasValidData`, wrap untyped fetch errors as `POLLING_ERROR`, pass typed
ones through.  `.ok (some s)` means listeners were notified with `s`;
`.ok none` means the tick completed without notifying. -/
def pollTick (fetched : Except Thrown (Sample α)) : Except Thrown (Option (Sample α)) :=
  match fetched with
  | .ok d => .ok (if hasValidData d then some d else none)
  | .error (.typed k) => .error (.typed k)
  | .error .untyped => .error (.typed .POLLING_ERROR)

/-- The realtime stream callback installed by `initializeProviderStream`
(`healthProviderManager.ts` 206-209): `(metric, data) =>
this.notifyCallbacks(metric, data)` — the pushed sample is forwarded to the
listeners unconditionally, with no `hasValidData` check. -/
def realtimeDeliver (s : Sample α) : Option (Sample α) :=
  some s

/-- The overlap test of `mergeDataPoints` (`healthDataService.ts` 193-197):
`point.start <= existing.end && point.end >= existing.start` — touching
endpoints count as overlapping. -/
def overlapsB (p e : DataPoint α) : Bool :=
  decide (p.start ≤ e.«end») && decide (p.«end» ≥ e.start)

/-- The same overlap relation as a proposition. -/
def Overlap (p e : DataPoint α) : Prop :=
  p.start ≤ e.«end» ∧ p.«end» ≥ e.start

instance (p e : DataPoint α) : Decidable (Overlap p e) := by
  unfold Overlap; infer_instance

/-- Stable insertion step for the stable sort by ascending `start`
(comparator `(a, b) => a.start.getTime() - b.start.getTime()`): keep walking
past strictly smaller keys, and stop before the first element whose key is
`≥` the inserted one, so that earlier-listed elements precede later ones on
equal keys. -/
def insertByStart (p : DataPoint α) : List (DataPoint α) → List (DataPoint α)
  | [] => [p]
  | q :: r => if q.start < p.start then q :: insertByStart p r else p :: q :: r

/-- The stable sort by ascending `start` used at `healthDataService.ts` 186-188
(and 120). -/
def sortByStart (l : List (DataPoint α)) : List (DataPoint α) :=
  l.foldr insertByStart []

/-- `merged[merged.indexOf(overlapping)] = point`: replace the first element
satisfying the predicate (see the module docstring for why this is the faithful
embedding of `find` + `indexOf` on reference-distinct objects). -/
def replaceFirst (pred : DataPoint α → Bool) (p : DataPoint α) :
    List (DataPoint α) → List (DataPoint α)
  | [] => []
  | q :: r => if pred q then p :: r else q :: replaceFirst pred p r

/-- The loop of `mergeDataPoints` (`healthDataService.ts` 192-220) over the
already-sorted points: scan the output for the first overlapping entry; append
when none; otherwise look up both priorities (failing fatally with
`PRIORITY_ERROR` when either is absent) and replace the entry in place exactly
when the new point's priority is strictly greater. -/
def mergeLoop (prior : String → Option Int) :
    List (DataPoint α) → List (DataPoint α) → Except Thrown (List (DataPoint α))
  | merged, [] => .ok merged
  | merged, p :: rest =>
    match merged.find? (overlapsB p) with
    | none => mergeLoop prior (merged ++ [p]) rest
    | some e =>
      match prior p.source, prior e.source with
      | some cp, some ep =>
        if ep < cp then
          mergeLoop prior (replaceFirst (overlapsB p) p merged) rest
        else
          mergeLoop prior merged rest
      | _, _ => .error (.typed .PRIORITY_ERROR)

/-- `mergeDataPoints` (`healthDataService.ts` 172-223): empty input short-cut,
stable sort by start, then the overlap-resolution loop. -/
def mergeDataPoints (prior : String → Option Int) (pts : List (DataPoint α)) :
    Except Thrown (List (DataPoint α)) :=
  if pts.isEmpty then .ok [] else mergeLoop prior [] (sortByStart pts)

/-- `getProviderPriorities` / the `providers.reduce` pattern building
`Record<string, number>` from provider ids: later assignments overwrite
earlier ones, so the map sends `s` to the priority of the last provider in the
list whose id is `s`. -/
def prioritiesOf (ps : List (Provider α)) (s : String) : Option Int :=
  (ps.reverse.find? (fun p => p.id == s)).map (fun p => p.priority)

/-- `getProviderPriorities` (`healthDataService.ts` 34-43): the priority map
built from `getAllProviders()` — every registered provider, enabled or not. -/
def getProviderPriorities (st : ManagerState α) : String → Option Int :=
  prioritiesOf (getAllProviders st)

/-- `mergeMetricData` (`healthDataService.ts` 150-164): with no existing sample
the new one is returned verbatim; otherwise the concatenated points are
re-merged under `getProviderPriorities`, producing a fresh sample with the new
data's type and the current timestamp. -/
def mergeMetricData (st : ManagerState α) (existing : Option (Sample α))
    (newData : Sample α) (now : Int) : Except Thrown (Sample α) :=
  match existing with
  | none => .ok newData
  | some ex =>
    (mergeDataPoints (getProviderPriorities st) (ex.value ++ newData.value)).map
      (fun merged => { value := merged, type := newData.type, timestamp := now })

/-- One provider fetch inside `consolidateHealthMetrics`
(`healthDataService.ts` 102-118): `getData`, keep the points (tagged with the
provider id) only when `hasValidData`; a typed error rethrows unchanged, an
untyped one becomes `DATA_FETCH_ERROR`. -/
def fetchPoints (p : Provider α) (m : Metric) : Except Thrown (List (DataPoint α)) :=
  match p.getData m with
  | .ok s =>
    .ok (if hasValidData s then s.value.map (fun pt => { pt with source := p.id }) else [])
  | .error (.typed k) => .error (.typed k)
  | .error .untyped => .error (.typed .DATA_FETCH_ERROR)

/-- The provider loop of `consolidateHealthMetrics`: collect the tagged points
of all providers in order, propagating the first fetch failure. -/
def collectPoints (providers : List (Provider α)) (m : Metric) :
    Except Thrown (List (DataPoint α)) :=
  match providers with
  | [] => .ok []
  | p :: ps => do
    let a ← fetchPoints p m
    let b ← collectPoints ps m
    .ok (a ++ b)

/-- `consolidateHealthMetrics` (`healthDataService.ts` 90-142): per requested
metric, gather points from the enabled providers supporting it, pre-sort them
by start, build the priority map from those providers only, merge, and record a
`category` sample timestamped `now` — omitting the metric entirely when the
merged result is empty.  Any thrown error (fetch or `PRIORITY_ERROR`) aborts
the whole call. -/
def consolidateHealthMetrics (st : ManagerState α) (enabled : List String)
    (metrics : List Metric) (now : Int) :
    Except Thrown (List (Metric × Sample α)) :=
  match metrics with
  | [] => .ok []
  | m :: ms => do
    let providers := getProvidersForMetric st enabled m
    let all ← collectPoints providers m
    let merged ← mergeDataPoints (prioritiesOf providers) (sortByStart all)
    let rest ← consolidateHealthMetrics st enabled ms now
    .ok (if merged.isEmpty then rest
         else (m, { value := merged, type := .category, timestamp := now }) :: rest)

/-- The result shape of `syncHealthData` (`healthDataService.ts` 62-81). -/
structure SyncResult (α : Type) where
  error : Option Thrown
  isLoading : Bool
  healthData : List (Metric × Sample α)
  lastSync : Int

/-- `syncHealthData` (`healthDataService.ts` 62-81): consolidate; on success
return the data with `lastSync := now`; on any thrown error return the error
with empty `healthData` and the old `lastSync`. -/
def syncHealthData (st : ManagerState α) (enabled : List String)
    (metrics : List Metric) (lastSync now : Int) : SyncResult α :=
  match consolidateHealthMetrics st enabled metrics now with
  | .ok d => { error := none, isLoading := false, healthData := d, lastSync := now }
  | .error e =>
    { error := some e, isLoading := false, healthData := [], lastSync := lastSync }

/-- Interval separation: `a` ends strictly before `b` starts. -/
def Sep (a b : DataPoint α) : Prop :=
  a.«end» < b.start

/-- Duplicate every element in place: `dup [x, y] = [x, x, y, y]`. -/
def dup : List (DataPoint α) → List (DataPoint α)
  | [] => []
  | x :: xs => x :: x :: dup xs

/-! ### Basic lemmas about the overlap test and the stable sort -/

theorem overlap_symm {p e : DataPoint α} (h : Overlap p e) : Overlap e p :=
  ⟨h.2, h.1⟩

theorem overlapsB_eq_true {p e : DataPoint α} : overlapsB p e = true ↔ Overlap p e := by
  simp [overlapsB, Overlap]

theorem mem_insertByStart {a p : DataPoint α} {l : List (DataPoint α)} :
    a ∈ insertByStart p l ↔ a = p ∨ a ∈ l := by
  induction l with
  | nil => simp [insertByStart]
  | cons q r ih =>
    simp only [insertByStart]
    split
    · simp only [List.mem_cons, ih]
      tauto
    · simp only [List.mem_cons]

theorem pairwise_le_insertByStart {p : DataPoint α} {l : List (DataPoint α)}
    (h : l.Pairwise (fun a b => a.start ≤ b.start)) :
    (insertByStart p l).Pairwise (fun a b => a.start ≤ b.start) := by
  induction l with
  | nil => simp [insertByStart]
  | cons q r ih =>
    rw [List.pairwise_cons] at h
    obtain ⟨hq, hr⟩ := h
    simp only [insertByStart]
    split
    · rename_i hlt
      rw [List.pairwise_cons]
      refine ⟨?_, ih hr⟩
      intro x hx
      rcases mem_insertByStart.mp hx with rfl | hx'
      · omega
      · exact hq x hx'
    · rename_i hge
      rw [List.pairwise_cons]
      constructor
      · intro x hx
        rcases List.mem_cons.mp hx with rfl | hx'
        · omega
        · have := hq x hx'
          omega
      · rw [List.pairwise_cons]
        exact ⟨hq, hr⟩

theorem sorted_sortByStart (l : List (DataPoint α)) :
    (sortByStart l).Pairwise (fun a b => a.start ≤ b.start) := by
  induction l with
  | nil => simp [sortByStart]
  | cons x xs ih =>
    simpa only [sortByStart, List.foldr_cons] using pairwise_le_insertByStart ih

theorem mem_sortByStart {a : DataPoint α} {l : List (DataPoint α)} :
    a ∈ sortByStart l ↔ a ∈ l := by
  induction l with
  | nil => simp [sortByStart]
  | cons x xs ih =>
    simp only [sortByStart, List.foldr_cons] at ih ⊢
    rw [mem_insertByStart, ih, List.mem_cons]

theorem sortByStart_eq_of_sorted {l : List (DataPoint α)}
    (h : l.Pairwise (fun a b => a.start ≤ b.start)) : sortByStart l = l := by
  induction l with
  | nil => rfl
  | cons x xs ih =>
    rw [List.pairwise_cons] at h
    obtain ⟨hx, hxs⟩ := h
    simp only [sortByStart, List.foldr_cons] at ih ⊢
    rw [ih hxs]
    cases xs with
    | nil => rfl
    | cons y ys =>
      have : ¬ y.start < x.start := by
        have := hx y (by simp)
        omega
      simp [insertByStart, this]

theorem mem_replaceFirst {a p : DataPoint α} {pred : DataPoint α → Bool}
    {l : List (DataPoint α)} (h : a ∈ replaceFirst pred p l) : a = p ∨ a ∈ l := by
  induction l with
  | nil => simp [replaceFirst] at h
  | cons q r ih =>
    simp only [replaceFirst] at h
    split at h
    · rcases List.mem_cons.mp h with rfl | h'
      · exact .inl rfl
      · exact .inr (List.mem_cons.mpr (.inr h'))
    · rcases List.mem_cons.mp h with rfl | h'
      · exact .inr (List.mem_cons.mpr (.inl rfl))
      · rcases ih h' with h'' | h''
        · exact .inl h''
        · exact .inr (List.mem_cons.mpr (.inr h''))

/-! ### Preservation of the loop invariants by in-place replacement -/

theorem pairwise_nov_replaceFirst {p : DataPoint α} {l : List (DataPoint α)}
    (hpw : l.Pairwise (fun a b => ¬ Overlap a b))
    (hst : ∀ f ∈ l, f.start ≤ p.start) :
    (replaceFirst (overlapsB p) p l).Pairwise (fun a b => ¬ Overlap a b) := by
  induction l with
  | nil => simp [replaceFirst]
  | cons q r ih =>
    rw [List.pairwise_cons] at hpw
    obtain ⟨hq, hr⟩ := hpw
    simp only [replaceFirst]
    split
    · rename_i hov
      rw [List.pairwise_cons]
      refine ⟨?_, hr⟩
      intro f hf hpf
      obtain ⟨h1, h2⟩ := overlapsB_eq_true.mp hov
      obtain ⟨h3, h4⟩ := hpf
      have h5 : q.start ≤ p.start := hst q (by simp)
      have h6 : f.start ≤ p.start := hst f (by simp [hf])
      exact hq f hf ⟨by omega, by omega⟩
    · rename_i hov
      rw [List.pairwise_cons]
      constructor
      · intro f hf
        rcases mem_replaceFirst hf with rfl | hf'
        · intro hqf
          exact hov (overlapsB_eq_true.mpr (overlap_symm hqf))
        · exact hq f hf'
      · exact ih hr (fun f hf => hst f (by simp [hf]))

theorem pairwise_sep_replaceFirst {p : DataPoint α} {l : List (DataPoint α)}
    (hsep : l.Pairwise Sep) (hst : ∀ f ∈ l, f.start ≤ p.start)
    (hwf : p.start ≤ p.«end») :
    (replaceFirst (overlapsB p) p l).Pairwise Sep := by
  induction l with
  | nil => simp [replaceFirst]
  | cons q r ih =>
    rw [List.pairwise_cons] at hsep
    obtain ⟨hq, hr⟩ := hsep
    simp only [replaceFirst]
    split
    · rename_i hov
      rw [List.pairwise_cons]
      refine ⟨?_, hr⟩
      intro g hg
      obtain ⟨h1, h2⟩ := overlapsB_eq_true.mp hov
      have h3 : q.«end» < g.start := hq g hg
      have h4 : g.start ≤ p.start := hst g (by simp [hg])
      unfold Sep
      omega
    · rename_i hov
      rw [List.pairwise_cons]
      constructor
      · intro f hf
        rcases mem_replaceFirst hf with h' | hf'
        · rw [h']
          have h4 : q.start ≤ p.start := hst q (by simp)
          have h5 : ¬ Overlap p q := fun h => hov (overlapsB_eq_true.mpr h)
          unfold Overlap at h5
          unfold Sep
          omega
        · exact hq f hf'
      · exact ih hr (fun f hf => hst f (by simp [hf]))

/-! ### Invariants of the merge loop -/

theorem mergeLoop_mem {prior : String → Option Int} :
    ∀ {rest merged out : List (DataPoint α)},
      mergeLoop prior merged rest = .ok out → ∀ x ∈ out, x ∈ merged ∨ x ∈ rest := by
  intro rest
  induction rest with
  | nil =>
    intro merged out h x hx
    simp only [mergeLoop, Except.ok.injEq] at h
    exact .inl (h ▸ hx)
  | cons p ps ih =>
    intro merged out h x hx
    simp only [mergeLoop] at h
    split at h
    · rcases ih h x hx with h' | h'
      · rcases List.mem_append.mp h' with h'' | h''
        · exact .inl h''
        · simp only [List.mem_singleton] at h''
          exact .inr (by simp [h''])
      · exact .inr (by simp [h'])
    · split at h
      · split at h
        · rcases ih h x hx with h' | h'
          · rcases mem_replaceFirst h' with rfl | h''
            · exact .inr (by simp)
            · exact .inl h''
          · exact .inr (by simp [h'])
        · rcases ih h x hx with h' | h'
          · exact .inl h'
          · exact .inr (by simp [h'])
      · exact absurd h (by simp)

theorem mergeLoop_error_kind {prior : String → Option Int} :
    ∀ {rest merged : List (DataPoint α)} {t : Thrown},
      mergeLoop prior merged rest = .error t → t = .typed .PRIORITY_ERROR := by
  intro rest
  induction rest with
  | nil =>
    intro merged t h
    simp [mergeLoop] at h
  | cons p ps ih =>
    intro merged t h
    simp only [mergeLoop] at h
    split at h
    · exact ih h
    · split at h
      · split at h
        · exact ih h
        · exact ih h
      · simp only [Except.error.injEq] at h
        exact h.symm

theorem mergeLoop_ok_of_covered {prior : String → Option Int} :
    ∀ {rest merged : List (DataPoint α)},
      (∀ x ∈ merged, (prior x.source).isSome) →
      (∀ x ∈ rest, (prior x.source).isSome) →
      ∃ out, mergeLoop prior merged rest = .ok out := by
  intro rest
  induction rest with
  | nil =>
    intro merged _ _
    exact ⟨merged, rfl⟩
  | cons p ps ih =>
    intro merged hm hr
    have hrp : (prior p.source).isSome := hr p (by simp)
    have hrs : ∀ x ∈ ps, (prior x.source).isSome := fun x hx => hr x (by simp [hx])
    cases hf : merged.find? (overlapsB p) with
    | none =>
      have hm' : ∀ x ∈ merged ++ [p], (prior x.source).isSome := by
        intro x hx
        rcases List.mem_append.mp hx with h' | h'
        · exact hm x h'
        · simp only [List.mem_singleton] at h'
          exact h' ▸ hrp
      obtain ⟨out, hout⟩ := ih hm' hrs
      exact ⟨out, by simp only [mergeLoop, hf]; exact hout⟩
    | some e =>
      obtain ⟨cp, hcp⟩ := Option.isSome_iff_exists.mp hrp
      obtain ⟨ep, hep⟩ :=
        Option.isSome_iff_exists.mp (hm e (List.mem_of_find?_eq_some hf))
      by_cases hlt : ep < cp
      · have hm' : ∀ x ∈ replaceFirst (overlapsB p) p merged, (prior x.source).isSome := by
          intro x hx
          rcases mem_replaceFirst hx with h' | h'
          · exact h' ▸ hrp
          · exact hm x h'
        obtain ⟨out, hout⟩ := ih hm' hrs
        exact ⟨out, by simp only [mergeLoop, hf, hcp, hep, if_pos hlt]; exact hout⟩
      · obtain ⟨out, hout⟩ := ih hm hrs
        exact ⟨out, by simp only [mergeLoop, hf, hcp, hep, if_neg hlt]; exact hout⟩

theorem mergeLoop_pairwise_nov {prior : String → Option Int} :
    ∀ {rest merged out : List (DataPoint α)},
      merged.Pairwise (fun a b => ¬ Overlap a b) →
      (∀ e ∈ merged, ∀ q ∈ rest, e.start ≤ q.start) →
      rest.Pairwise (fun a b => a.start ≤ b.start) →
      mergeLoop prior merged rest = .ok out →
      out.Pairwise (fun a b => ¬ Overlap a b) := by
  intro rest
  induction rest with
  | nil =>
    intro merged out hpw _ _ h
    simp only [mergeLoop, Except.ok.injEq] at h
    exact h ▸ hpw
  | cons p ps ih =>
    intro merged out hpw hst hsort h
    rw [List.pairwise_cons] at hsort
    obtain ⟨hps, hsort'⟩ := hsort
    have hstp : ∀ e ∈ merged, e.start ≤ p.start := fun e he => hst e he p (by simp)
    cases hf : merged.find? (overlapsB p) with
    | none =>
      simp only [mergeLoop, hf] at h
      apply ih ?_ ?_ hsort' h
      · rw [List.pairwise_append]
        refine ⟨hpw, by simp, ?_⟩
        intro a ha b hb
        simp only [List.mem_singleton] at hb
        subst hb
        intro hab
        exact List.find?_eq_none.mp hf a ha (overlapsB_eq_true.mpr (overlap_symm hab))
      · intro x hx q hq
        rcases List.mem_append.mp hx with h' | h'
        · exact hst x h' q (by simp [hq])
        · simp only [List.mem_singleton] at h'
          rw [h']
          exact hps q hq
    | some e =>
      cases hcp : prior p.source with
      | none => simp [mergeLoop, hf, hcp] at h
      | some cp =>
        cases hep : prior e.source with
        | none => simp [mergeLoop, hf, hcp, hep] at h
        | some ep =>
          simp only [mergeLoop, hf, hcp, hep] at h
          by_cases hlt : ep < cp
          · rw [if_pos hlt] at h
            apply ih ?_ ?_ hsort' h
            · exact pairwise_nov_replaceFirst hpw hstp
            · intro x hx q hq
              rcases mem_replaceFirst hx with h' | h'
              · rw [h']
                exact hps q hq
              · exact hst x h' q (by simp [hq])
          · rw [if_neg hlt] at h
            exact ih hpw (fun x hx q hq => hst x hx q (by simp [hq])) hsort' h

theorem mergeLoop_pairwise_sep {prior : String → Option Int} :
    ∀ {rest merged out : List (DataPoint α)},
      merged.Pairwise Sep →
      (∀ e ∈ merged, ∀ q ∈ rest, e.start ≤ q.start) →
      rest.Pairwise (fun a b => a.start ≤ b.start) →
      (∀ q ∈ rest, q.start ≤ q.«end») →
      mergeLoop prior merged rest = .ok out →
      out.Pairwise Sep := by
  intro rest
  induction rest with
  | nil =>
    intro merged out hpw _ _ _ h
    simp only [mergeLoop, Except.ok.injEq] at h
    exact h ▸ hpw
  | cons p ps ih =>
    intro merged out hpw hst hsort hwf h
    rw [List.pairwise_cons] at hsort
    obtain ⟨hps, hsort'⟩ := hsort
    have hwp : p.start ≤ p.«end» := hwf p (by simp)
    have hwf' : ∀ q ∈ ps, q.start ≤ q.«end» := fun q hq => hwf q (by simp [hq])
    have hstp : ∀ e ∈ merged, e.start ≤ p.start := fun e he => hst e he p (by simp)
    cases hf : merged.find? (overlapsB p) with
    | none =>
      simp only [mergeLoop, hf] at h
      apply ih ?_ ?_ hsort' hwf' h
      · rw [List.pairwise_append]
        refine ⟨hpw, by simp, ?_⟩
        intro a ha b hb
        simp only [List.mem_singleton] at hb
        rw [hb]
        have h1 : ¬ Overlap p a :=
          fun hov => List.find?_eq_none.mp hf a ha (overlapsB_eq_true.mpr hov)
        have h2 : a.start ≤ p.start := hstp a ha
        unfold Overlap at h1
        unfold Sep
        omega
      · intro x hx q hq
        rcases List.mem_append.mp hx with h' | h'
        · exact hst x h' q (by simp [hq])
        · simp only [List.mem_singleton] at h'
          rw [h']
          exact hps q hq
    | some e =>
      cases hcp : prior p.source with
      | none => simp [mergeLoop, hf, hcp] at h
      | some cp =>
        cases hep : prior e.source with
        | none => simp [mergeLoop, hf, hcp, hep] at h
        | some ep =>
          simp only [mergeLoop, hf, hcp, hep] at h
          by_cases hlt : ep < cp
          · rw [if_pos hlt] at h
            apply ih ?_ ?_ hsort' hwf' h
            · exact pairwise_sep_replaceFirst hpw hstp hwp
            · intro x hx q hq
              rcases mem_replaceFirst hx with h' | h'
              · rw [h']
                exact hps q hq
              · exact hst x h' q (by simp [hq])
          · rw [if_neg hlt] at h
            exact ih hpw (fun x hx q hq => hst x hx q (by simp [hq])) hsort' hwf' h

/-! ### Facts about `mergeDataPoints` -/

theorem mergeDataPoints_nonoverlap {prior : String → Option Int}
    {pts out : List (DataPoint α)} (h : mergeDataPoints prior pts = .ok out) :
    out.Pairwise (fun a b => ¬ Overlap a b) := by
  by_cases hemp : pts.isEmpty
  · simp only [mergeDataPoints, if_pos hemp, Except.ok.injEq] at h
    simp [← h]
  · simp only [mergeDataPoints, if_neg hemp] at h
    exact mergeLoop_pairwise_nov (by simp) (by simp) (sorted_sortByStart pts) h

theorem mergeDataPoints_mem {prior : String → Option Int}
    {pts out : List (DataPoint α)} (h : mergeDataPoints prior pts = .ok out) :
    ∀ x ∈ out, x ∈ pts := by
  by_cases hemp : pts.isEmpty
  · simp only [mergeDataPoints, if_pos hemp, Except.ok.injEq] at h
    simp [← h]
  · simp only [mergeDataPoints, if_neg hemp] at h
    intro x hx
    rcases mergeLoop_mem h x hx with h' | h'
    · simp at h'
    · exact mem_sortByStart.mp h'

theorem mergeDataPoints_sep {prior : String → Option Int}
    {pts out : List (DataPoint α)} (hwf : ∀ x ∈ pts, x.start ≤ x.«end»)
    (h : mergeDataPoints prior pts = .ok out) : out.Pairwise Sep := by
  by_cases hemp : pts.isEmpty
  · simp only [mergeDataPoints, if_pos hemp, Except.ok.injEq] at h
    simp [← h]
  · simp only [mergeDataPoints, if_neg hemp] at h
    exact mergeLoop_pairwise_sep (by simp) (by simp) (sorted_sortByStart pts)
      (fun q hq => hwf q (mem_sortByStart.mp hq)) h

theorem mergeDataPoints_ok_of_covered {prior : String → Option Int}
    {pts : List (DataPoint α)} (hcov : ∀ x ∈ pts, (prior x.source).isSome) :
    ∃ out, mergeDataPoints prior pts = .ok out := by
  by_cases hemp : pts.isEmpty
  · exact ⟨[], by simp [mergeDataPoints, if_pos hemp]⟩
  · obtain ⟨out, hout⟩ :=
      @mergeLoop_ok_of_covered α prior (sortByStart pts) [] (by simp)
        (fun x hx => hcov x (mem_sortByStart.mp hx))
    exact ⟨out, by simp only [mergeDataPoints, if_neg hemp]; exact hout⟩

theorem mergeDataPoints_error_kind {prior : String → Option Int}
    {pts : List (DataPoint α)} {t : Thrown}
    (h : mergeDataPoints prior pts = .error t) : t = .typed .PRIORITY_ERROR := by
  by_cases hemp : pts.isEmpty
  · simp [mergeDataPoints, if_pos hemp] at h
  · simp only [mergeDataPoints, if_neg hemp] at h
    exact mergeLoop_error_kind h

/-! ### Idempotence machinery: re-merging a separated output -/

theorem insertByStart_through {x : DataPoint α} :
    ∀ {l₁ r : List (DataPoint α)}, (∀ e ∈ l₁, e.start < x.start) →
      insertByStart x (l₁ ++ x :: r) = l₁ ++ x :: x :: r := by
  intro l₁
  induction l₁ with
  | nil =>
    intro r _
    simp [insertByStart]
  | cons e l₁ ih =>
    intro r h
    have he : e.start < x.start := h e (by simp)
    simp only [List.cons_append, insertByStart, if_pos he, List.cons.injEq, true_and]
    exact ih (fun f hf => h f (by simp [hf]))

theorem foldr_ins_dup :
    ∀ (l₂ l₁ : List (DataPoint α)),
      (l₁ ++ l₂).Pairwise (fun a b => a.start < b.start) →
      List.foldr insertByStart (l₁ ++ l₂) l₂ = l₁ ++ dup l₂ := by
  intro l₂
  induction l₂ with
  | nil =>
    intro l₁ _
    simp [dup]
  | cons x xs ih =>
    intro l₁ h
    have hassoc : l₁ ++ x :: xs = (l₁ ++ [x]) ++ xs := by simp
    have h' : ((l₁ ++ [x]) ++ xs).Pairwise (fun a b => a.start < b.start) := by
      rw [← hassoc]
      exact h
    have hlt : ∀ e ∈ l₁, e.start < x.start := by
      rw [List.pairwise_append] at h
      exact fun e he => h.2.2 e he x (by simp)
    calc List.foldr insertByStart (l₁ ++ x :: xs) (x :: xs)
        = insertByStart x (List.foldr insertByStart (l₁ ++ x :: xs) xs) := by
          simp only [List.foldr_cons]
      _ = insertByStart x (List.foldr insertByStart ((l₁ ++ [x]) ++ xs) xs) := by
          rw [← hassoc]
      _ = insertByStart x ((l₁ ++ [x]) ++ dup xs) := by rw [ih (l₁ ++ [x]) h']
      _ = insertByStart x (l₁ ++ x :: dup xs) := by simp
      _ = l₁ ++ x :: x :: dup xs := insertByStart_through hlt
      _ = l₁ ++ dup (x :: xs) := by simp [dup]

theorem sortByStart_double {l : List (DataPoint α)}
    (h : l.Pairwise (fun a b => a.start < b.start)) :
    sortByStart (l ++ l) = dup l := by
  have hle : l.Pairwise (fun a b => a.start ≤ b.start) :=
    h.imp (fun hab => le_of_lt hab)
  calc sortByStart (l ++ l)
      = List.foldr insertByStart (sortByStart l) l := by
        simp [sortByStart, List.foldr_append]
    _ = List.foldr insertByStart l l := by rw [sortByStart_eq_of_sorted hle]
    _ = dup l := by simpa using foldr_ins_dup l [] (by simpa using h)

theorem find?_append_of_left_none {pred : DataPoint α → Bool}
    {l₁ l₂ : List (DataPoint α)} (h : l₁.find? pred = none) :
    (l₁ ++ l₂).find? pred = l₂.find? pred := by
  rw [List.find?_append, h, Option.none_or]

theorem mergeLoop_dup {prior : String → Option Int} :
    ∀ (l acc : List (DataPoint α)),
      (∀ a ∈ acc, ∀ b ∈ l, a.«end» < b.start) →
      l.Pairwise Sep →
      (∀ b ∈ l, b.start ≤ b.«end») →
      (∀ b ∈ l, (prior b.source).isSome) →
      mergeLoop prior acc (dup l) = .ok (acc ++ l) := by
  intro l
  induction l with
  | nil =>
    intro acc _ _ _ _
    simp [dup, mergeLoop]
  | cons x xs ih =>
    intro acc hacc hsep hwf hcov
    rw [List.pairwise_cons] at hsep
    obtain ⟨hx, hxs⟩ := hsep
    have hwx : x.start ≤ x.«end» := hwf x (by simp)
    have hf1 : acc.find? (overlapsB x) = none := by
      rw [List.find?_eq_none]
      intro a ha
      have := hacc a ha x (by simp)
      simp only [overlapsB, Bool.and_eq_true, decide_eq_true_eq, not_and]
      omega
    have hf2 : (acc ++ [x]).find? (overlapsB x) = some x := by
      rw [find?_append_of_left_none hf1]
      have : overlapsB x x = true := by
        simp only [overlapsB, Bool.and_eq_true, decide_eq_true_eq]
        omega
      simp [this]
    obtain ⟨v, hv⟩ := Option.isSome_iff_exists.mp (hcov x (by simp))
    have hstep : mergeLoop prior (acc ++ [x]) (dup xs) = .ok ((acc ++ [x]) ++ xs) := by
      apply ih (acc ++ [x]) ?_ hxs (fun b hb => hwf b (by simp [hb]))
        (fun b hb => hcov b (by simp [hb]))
      intro a ha b hb
      rcases List.mem_append.mp ha with h' | h'
      · exact hacc a h' b (by simp [hb])
      · simp only [List.mem_singleton] at h'
        rw [h']
        exact hx b hb
    simp only [dup, mergeLoop, hf1, hf2, hv, lt_irrefl, if_neg (lt_irrefl v)]
    rw [hstep]
    simp

theorem mergeDataPoints_idem {prior : String → Option Int}
    {pts out : List (DataPoint α)}
    (hwf : ∀ x ∈ pts, x.start ≤ x.«end»)
    (hcov : ∀ x ∈ pts, (prior x.source).isSome)
    (h : mergeDataPoints prior pts = .ok out) :
    mergeDataPoints prior (out ++ out) = .ok out := by
  have hmem : ∀ x ∈ out, x ∈ pts := mergeDataPoints_mem h
  have hwf' : ∀ x ∈ out, x.start ≤ x.«end» := fun x hx => hwf x (hmem x hx)
  have hcov' : ∀ x ∈ out, (prior x.source).isSome := fun x hx => hcov x (hmem x hx)
  have hsep : out.Pairwise Sep := mergeDataPoints_sep hwf h
  have hlt : out.Pairwise (fun a b => a.start < b.start) := by
    apply hsep.imp_of_mem
    intro a b ha _ hs
    have := hwf' a ha
    unfold Sep at hs
    omega
  cases hout : out with
  | nil => simp [mergeDataPoints]
  | cons o os =>
    subst hout
    have hne : ((o :: os) ++ (o :: os)).isEmpty = false := rfl
    simp only [mergeDataPoints, hne, Bool.false_eq_true, if_false]
    rw [sortByStart_double hlt]
    simpa using mergeLoop_dup (o :: os) [] (by simp) hsep hwf' hcov'

theorem bind_ok_eq {ε A B : Type} (a : A) (f : A → Except ε B) :
    (Except.ok a >>= f : Except ε B) = f a := rfl

theorem bind_error_eq {ε A B : Type} (t : ε) (f : A → Except ε B) :
    ((Except.error t : Except ε A) >>= f) = Except.error t := rfl

/-! ### Facts about listener notification -/

theorem notifyFrom_all_ok {x : β} :
    ∀ {cbs : List (Listener β E)} {i : Nat}, (∀ c ∈ cbs, c x = none) →
      notifyFrom x i cbs = (List.range' i cbs.length, none) := by
  intro cbs
  induction cbs with
  | nil =>
    intro i _
    simp [notifyFrom, List.range']
  | cons c cs ih =>
    intro i h
    have hc : c x = none := h c (by simp)
    simp only [notifyFrom, hc]
    rw [ih (fun d hd => h d (by simp [hd]))]
    simp [List.range']

theorem notifyFrom_abort {x : β} {e : E} :
    ∀ {pre : List (Listener β E)} {c : Listener β E} {post : List (Listener β E)} {i : Nat},
      (∀ d ∈ pre, d x = none) → c x = some e →
      notifyFrom x i (pre ++ c :: post) = (List.range' i (pre.length + 1), some e) := by
  intro pre
  induction pre with
  | nil =>
    intro c post i _ hc
    simp [notifyFrom, hc, List.range']
  | cons d pre ih =>
    intro c post i h hc
    have hd : d x = none := h d (by simp)
    simp only [List.cons_append, notifyFrom, hd, List.append_eq]
    rw [ih (fun f hf => h f (by simp [hf])) hc]
    simp [List.range']

/-! ### Facts about the priority maps and the service layer -/

theorem prioritiesOf_isSome {ps : List (Provider α)} {s : String}
    (h : s ∈ ps.map (fun p => p.id)) : (prioritiesOf ps s).isSome := by
  obtain ⟨p, hp, hid⟩ := List.mem_map.mp h
  simp only [prioritiesOf, Option.isSome_map']
  rw [List.find?_isSome]
  exact ⟨p, List.mem_reverse.mpr hp, by simp [hid]⟩

theorem mergeMetricData_ok_of_registered {st : ManagerState α} {ex nw : Sample α}
    {now : Int}
    (hsrc : ∀ pt ∈ ex.value ++ nw.value, pt.source ∈ st.providers.map (fun p => p.id)) :
    ∃ s, mergeMetricData st (some ex) nw now = .ok s := by
  have hcov : ∀ pt ∈ ex.value ++ nw.value, (getProviderPriorities st pt.source).isSome :=
    fun pt hpt => prioritiesOf_isSome (hsrc pt hpt)
  obtain ⟨out, hout⟩ := mergeDataPoints_ok_of_covered hcov
  refine ⟨{ value := out, type := nw.type, timestamp := now }, ?_⟩
  simp only [mergeMetricData, hout, Except.map]

/-! ### Facts about bulk consolidation -/

theorem consolidate_abort {st : ManagerState α} {enabled : List String} {m : Metric}
    {ms : List Metric} {now : Int} {t : Thrown}
    (h : collectPoints (getProvidersForMetric st enabled m) m = .error t) :
    consolidateHealthMetrics st enabled (m :: ms) now = .error t := by
  simp [consolidateHealthMetrics, h, bind_error_eq]

theorem sync_error_empty {st : ManagerState α} {enabled : List String}
    {metrics : List Metric} {lastSync now : Int} {t : Thrown}
    (h : consolidateHealthMetrics st enabled metrics now = .error t) :
    syncHealthData st enabled metrics lastSync now =
      { error := some t, isLoading := false, healthData := [], lastSync := lastSync } := by
  simp [syncHealthData, h]

theorem consolidate_values_nonempty {st : ManagerState α} {enabled : List String} :
    ∀ {metrics : List Metric} {now : Int} {out : List (Metric × Sample α)}
      {m : Metric} {smp : Sample α},
      consolidateHealthMetrics st enabled metrics now = .ok out →
      (m, smp) ∈ out → smp.value ≠ [] := by
  intro metrics
  induction metrics with
  | nil =>
    intro now out m smp h hmem
    simp only [consolidateHealthMetrics, Except.ok.injEq] at h
    rw [← h] at hmem
    simp at hmem
  | cons m0 ms ih =>
    intro now out m smp h hmem
    simp only [consolidateHealthMetrics] at h
    cases h1 : collectPoints (getProvidersForMetric st enabled m0) m0 with
    | error t => rw [h1, bind_error_eq] at h; simp at h
    | ok pts =>
      rw [h1] at h
      simp only [bind_ok_eq] at h
      cases h2 : mergeDataPoints (prioritiesOf (getProvidersForMetric st enabled m0))
          (sortByStart pts) with
      | error t =>
        rw [h2, bind_error_eq] at h
        simp at h
      | ok merged =>
        rw [h2] at h
        simp only [bind_ok_eq] at h
        cases h3 : consolidateHealthMetrics st enabled ms now with
        | error t =>
          rw [h3, bind_error_eq] at h
          simp at h
        | ok rest =>
          rw [h3] at h
          simp only [bind_ok_eq, Except.ok.injEq] at h
          rw [← h] at hmem
          by_cases hm : merged.isEmpty
          · rw [if_pos hm] at hmem
            exact ih h3 hmem
          · rw [if_neg hm] at hmem
            rcases List.mem_cons.mp hmem with h' | h'
            · have hsmp : smp = { value := merged, type := .category, timestamp := now } :=
                congrArg Prod.snd h'
              rw [hsmp]
              intro hcon
              apply hm
              simp only at hcon
              simp [hcon]
            · exact ih h3 h'

/-! ## The claims -/

/-- C1: for every input collection of DataPoints and every priority lookup
defined on all their sources, `mergeDataPoints` succeeds and its output
contains no two DataPoints whose intervals overlap, where intervals overlap
iff `p.start <= e.end && p.end >= e.start` (touching endpoints count as
overlapping). -/
theorem merge_output_nonoverlap {α : Type} (prior : String → Option Int)
    (pts : List (DataPoint α)) (hcov : ∀ x ∈ pts, (prior x.source).isSome) :
    ∃ out, mergeDataPoints prior pts = .ok out ∧
      out.Pairwise (fun a b => ¬ Overlap a b) := by
  obtain ⟨out, hout⟩ := mergeDataPoints_ok_of_covered hcov
  exact ⟨out, hout, mergeDataPoints_nonoverlap hout⟩

/-- Witness for C1: a concrete two-point run whose lookup covers both sources;
the merge succeeds and the output is pairwise non-overlapping. -/
theorem merge_output_nonoverlap_witness :
    (∀ x ∈ ([⟨0, 5, "a", ()⟩, ⟨3, 9, "b", ()⟩] : List (DataPoint Unit)),
        ((fun s => if s = "a" then some 2 else if s = "b" then some 1 else none :
            String → Option Int) x.source).isSome) ∧
    (∃ out,
        mergeDataPoints
            (fun s => if s = "a" then some 2 else if s = "b" then some 1 else none)
            ([⟨0, 5, "a", ()⟩, ⟨3, 9, "b", ()⟩] : List (DataPoint Unit)) = .ok out ∧
          out.Pairwise (fun a b => ¬ Overlap a b)) :=
  ⟨by decide, merge_output_nonoverlap _ _ (by decide)⟩

/-- Counterexample to C2 as stated: with three points `pa = [0,10] (source "a",
priority 5)`, `pb = [0,3] ("b", 10)`, `pc = [5,20] ("c", 1)`, the points `pa`
and `pc` overlap and `pa`'s source has strictly greater priority (5 > 1), yet
the output `[pb, pc]` retains `pc` and drops `pa`: `pb` replaces `pa` in
place, after which `pc` no longer overlaps anything.  So it is not true that
for every pair of overlapping input points the higher-priority one is
retained. -/
theorem merge_pair_priority_counterexample :
    mergeDataPoints
        (fun s => if s = "a" then some 5 else if s = "b" then some 10
                  else if s = "c" then some 1 else none)
        ([⟨0, 10, "a", ()⟩, ⟨0, 3, "b", ()⟩, ⟨5, 20, "c", ()⟩] : List (DataPoint Unit)) =
      .ok [⟨0, 3, "b", ()⟩, ⟨5, 20, "c", ()⟩] ∧
    Overlap (⟨0, 10, "a", ()⟩ : DataPoint Unit) ⟨5, 20, "c", ()⟩ ∧
    (fun s => if s = "a" then some 5 else if s = "b" then some 10
              else if s = "c" then some 1 else none : String → Option Int) "a" = some 5 ∧
    (fun s => if s = "a" then some 5 else if s = "b" then some 10
              else if s = "c" then some 1 else none : String → Option Int) "c" = some 1 ∧
    (⟨0, 10, "a", ()⟩ : DataPoint Unit) ∉
      ([⟨0, 3, "b", ()⟩, ⟨5, 20, "c", ()⟩] : List (DataPoint Unit)) :=
  ⟨rfl, by decide, rfl, rfl, by decide⟩

/-- C2 (amended): no two overlapping points ever both survive a merge (in
particular two intervals that merely touch are treated as overlapping, so at
most one of them survives); and when the merge input consists of exactly two
overlapping points, the one with strictly greater source priority is retained —
on equal priority the earlier-start point, and on an exact start tie the
earlier point in collection order.  (As the counterexample shows, in larger
inputs the higher-priority member of an overlapping pair may itself be
displaced by a third point, so the per-pair formulation of the original claim
fails; the two-point formulation and the at-most-one-survivor guarantee are
what the code satisfies.) -/
theorem merge_pair_priority (α : Type) :
    (∀ (prior : String → Option Int) (pts out : List (DataPoint α)),
        mergeDataPoints prior pts = .ok out →
        out.Pairwise (fun a b => ¬ Overlap a b)) ∧
    (∀ (prior : String → Option Int) (a b : DataPoint α) (pa pb : Int),
        prior a.source = some pa → prior b.source = some pb → Overlap a b →
        mergeDataPoints prior [a, b] =
          .ok [if pa < pb then b else if pb < pa then a
               else if b.start < a.start then b else a]) := by
  constructor
  · intro prior pts out h
    exact mergeDataPoints_nonoverlap h
  · intro prior a b pa pb ha hb hov
    have hovab : overlapsB a b = true := overlapsB_eq_true.mpr hov
    have hovba : overlapsB b a = true := overlapsB_eq_true.mpr (overlap_symm hov)
    have h0 : mergeDataPoints prior [a, b] = mergeLoop prior [] (sortByStart [a, b]) := by
      simp [mergeDataPoints]
    by_cases hba : b.start < a.start
    · have h1 : sortByStart [a, b] = [b, a] := by
        simp [sortByStart, insertByStart, hba]
      have h2 : [b].find? (overlapsB a) = some b := by
        simp [hovab]
      rw [h0, h1]
      simp only [mergeLoop, List.find?_nil, List.nil_append, h2, ha, hb]
      by_cases hpp : pb < pa
      · rw [if_pos hpp]
        have h3 : replaceFirst (overlapsB a) a [b] = [a] := by
          simp [replaceFirst, hovab]
        rw [h3]
        rw [if_neg (by omega), if_pos hpp]
      · rw [if_neg hpp]
        by_cases hpp2 : pa < pb
        · rw [if_pos hpp2]
        · rw [if_neg hpp2, if_neg (by omega), if_pos hba]
    · have h1 : sortByStart [a, b] = [a, b] := by
        simp [sortByStart, insertByStart, hba]
      have h2 : [a].find? (overlapsB b) = some a := by
        simp [hovba]
      rw [h0, h1]
      simp only [mergeLoop, List.find?_nil, List.nil_append, h2, ha, hb]
      by_cases hpp : pa < pb
      · rw [if_pos hpp]
        have h3 : replaceFirst (overlapsB b) b [a] = [b] := by
          simp [replaceFirst, hovba]
        rw [h3]
        rw [if_pos hpp]
      · rw [if_neg hpp]
        by_cases hpp2 : pb < pa
        · rw [if_neg (by omega), if_pos hpp2]
        · rw [if_neg (by omega), if_neg hpp2, if_neg hba]

/-- Witness for C2 (amended): merging exactly the two touching points
`[0,4] ("a", priority 1)` and `[4,8] ("b", priority 2)` keeps only the
higher-priority `"b"` point. -/
theorem merge_pair_priority_witness :
    mergeDataPoints
        (fun s => if s = "a" then some 1 else if s = "b" then some 2 else none)
        ([⟨0, 4, "a", ()⟩, ⟨4, 8, "b", ()⟩] : List (DataPoint Unit)) =
      .ok [⟨4, 8, "b", ()⟩] := by
  have h := (merge_pair_priority Unit).2
    (fun s => if s = "a" then some 1 else if s = "b" then some 2 else none)
    ⟨0, 4, "a", ()⟩ ⟨4, 8, "b", ()⟩ 1 2 rfl rfl (by decide)
  simpa using h

/-- Counterexample to C3 as stated: for the single ill-formed point
`[start 1, end 0]` (whose `end` precedes its `start`, so it does not overlap
itself under the inclusive test) the merge succeeds and returns the point, but
re-merging the output concatenated with itself returns the point twice, not
the same sequence. -/
theorem merge_idempotent_counterexample :
    mergeDataPoints (fun s => if s = "a" then some 1 else none)
        ([⟨1, 0, "a", ()⟩] : List (DataPoint Unit)) = .ok [⟨1, 0, "a", ()⟩] ∧
    mergeDataPoints (fun s => if s = "a" then some 1 else none)
        (([⟨1, 0, "a", ()⟩] : List (DataPoint Unit)) ++ [⟨1, 0, "a", ()⟩]) =
      .ok [⟨1, 0, "a", ()⟩, ⟨1, 0, "a", ()⟩] ∧
    ([⟨1, 0, "a", ()⟩, ⟨1, 0, "a", ()⟩] : List (DataPoint Unit)) ≠ [⟨1, 0, "a", ()⟩] :=
  ⟨rfl, rfl, by decide⟩

/-- C3 (amended): the merge algorithm is idempotent over its own output
provided every input point is well-formed (`start ≤ end`) and every input
point's source has a priority in the lookup: if merging yields `out`, then
merging `out ++ out` with the same lookup yields `out` again.  (The
counterexample shows the well-formedness proviso is necessary: an ill-formed
point does not overlap its own duplicate under the inclusive test, so it is
retained twice.) -/
theorem merge_idempotent_wellformed {α : Type} (prior : String → Option Int)
    (pts out : List (DataPoint α))
    (hwf : ∀ x ∈ pts, x.start ≤ x.«end»)
    (hcov : ∀ x ∈ pts, (prior x.source).isSome)
    (h : mergeDataPoints prior pts = .ok out) :
    mergeDataPoints prior (out ++ out) = .ok out :=
  mergeDataPoints_idem hwf hcov h

/-- Witness for C3 (amended): for the well-formed overlapping points
`[0,10] ("a", priority 2)` and `[5,20] ("b", priority 1)` the merge yields the
`"a"` point and re-merging the doubled output yields it again. -/
theorem merge_idempotent_wellformed_witness :
    mergeDataPoints
        (fun s => if s = "a" then some 2 else if s = "b" then some 1 else none)
        ([⟨0, 10, "a", ()⟩, ⟨5, 20, "b", ()⟩] : List (DataPoint Unit)) =
      .ok [⟨0, 10, "a", ()⟩] ∧
    mergeDataPoints
        (fun s => if s = "a" then some 2 else if s = "b" then some 1 else none)
        (([⟨0, 10, "a", ()⟩] : List (DataPoint Unit)) ++ [⟨0, 10, "a", ()⟩]) =
      .ok [⟨0, 10, "a", ()⟩] :=
  ⟨rfl,
    merge_idempotent_wellformed _
      ([⟨0, 10, "a", ()⟩, ⟨5, 20, "b", ()⟩] : List (DataPoint Unit)) _
      (by decide) (by decide) rfl⟩

/-- C4: when the merge loop reaches a point `p` that overlaps an existing
output entry `e` and either source's priority is missing from the lookup, the
whole run fails with `PRIORITY_ERROR` no matter how many points remain
unprocessed — no partial result is returned; moreover `PRIORITY_ERROR` is the
only error `mergeDataPoints` ever produces. -/
theorem merge_priority_error_aborts (α : Type) :
    (∀ (prior : String → Option Int) (merged : List (DataPoint α)) (p : DataPoint α)
        (rest : List (DataPoint α)) (e : DataPoint α),
        merged.find? (overlapsB p) = some e →
        (prior p.source = none ∨ prior e.source = none) →
        mergeLoop prior merged (p :: rest) = .error (.typed .PRIORITY_ERROR)) ∧
    (∀ (prior : String → Option Int) (pts : List (DataPoint α)) (t : Thrown),
        mergeDataPoints prior pts = .error t → t = .typed .PRIORITY_ERROR) := by
  constructor
  · intro prior merged p rest e hf hmiss
    rcases hmiss with hmiss | hmiss
    · cases he : prior e.source <;> simp [mergeLoop, hf, hmiss, he]
    · cases hc : prior p.source <;> simp [mergeLoop, hf, hmiss, hc]
  · intro prior pts t h
    exact mergeDataPoints_error_kind h

/-- Witness for C4: with an empty priority lookup, a point overlapping the
already-merged `[0,5]` point aborts the run with `PRIORITY_ERROR` even though
a further (non-overlapping) point remains unprocessed. -/
theorem merge_priority_error_aborts_witness :
    (([⟨0, 5, "a", ()⟩] : List (DataPoint Unit)).find?
        (overlapsB (⟨1, 6, "b", ()⟩ : DataPoint Unit)) = some ⟨0, 5, "a", ()⟩) ∧
    mergeLoop (fun _ => none) [(⟨0, 5, "a", ()⟩ : DataPoint Unit)]
        [⟨1, 6, "b", ()⟩, ⟨100, 200, "c", ()⟩] = .error (.typed .PRIORITY_ERROR) :=
  ⟨by decide,
    (merge_priority_error_aborts Unit).1 (fun _ => none)
      [⟨0, 5, "a", ()⟩] ⟨1, 6, "b", ()⟩ [⟨100, 200, "c", ()⟩] ⟨0, 5, "a", ()⟩
      (by decide) (Or.inl rfl)⟩

/-- Counterexample to C5 as stated: with two registered listeners of which the
first throws, `notifyCallbacks` invokes only listener 0 and the exception
escapes — listener 1 is never invoked, because the `for..of` loop at
`healthProviderManager.ts` 250-254 has no try/catch around the callback call.
So an exception thrown by one listener does prevent delivery to the remaining
listeners. -/
theorem notify_exception_counterexample :
    notifyCallbacks ([fun _ => some (), fun _ => none] : List (Listener Unit Unit)) () =
      ([0], some ()) ∧
    (1 : Nat) ∉
      (notifyCallbacks ([fun _ => some (), fun _ => none] : List (Listener Unit Unit)) ()).1 :=
  ⟨rfl, by decide⟩

/-- C5 (amended): delivery happens in listener-registration order — when no
listener throws, every listener is invoked, in index order `0, 1, …` — but an
exception thrown by one listener aborts the loop: exactly the listeners up to
and including the throwing one are invoked, and the exception escapes to the
caller, so the remaining listeners are not notified. -/
theorem notify_order_and_abort (β E : Type) :
    (∀ (cbs : List (Listener β E)) (x : β), (∀ c ∈ cbs, c x = none) →
        notifyCallbacks cbs x = (List.range cbs.length, none)) ∧
    (∀ (pre post : List (Listener β E)) (c : Listener β E) (x : β) (e : E),
        (∀ d ∈ pre, d x = none) → c x = some e →
        notifyCallbacks (pre ++ c :: post) x = (List.range (pre.length + 1), some e)) := by
  constructor
  · intro cbs x h
    rw [notifyCallbacks, notifyFrom_all_ok h, List.range_eq_range']
  · intro pre post c x e h hc
    rw [notifyCallbacks, notifyFrom_abort h hc, List.range_eq_range']

/-- Witness for C5 (amended): two non-throwing listeners are both invoked, in
registration order. -/
theorem notify_order_and_abort_witness :
    notifyCallbacks ([fun _ => none, fun _ => none] : List (Listener Unit Unit)) () =
      ([0, 1], none) := by
  have h := (notify_order_and_abort Unit Unit).1
      [fun _ => none, fun _ => none] ()
      (by intro c hc; rcases List.mem_cons.mp hc with rfl | hc' <;> simp_all)
  exact h

/-- Counterexample to C6 as stated: for a registered provider `"a"` whose
stored realtime cleanup handle fails (untyped), `disableProvider` raises
`CLEANUP_ERROR` and returns with the state unchanged — the polling timer key
`"a-sleep"` is still present (the timers were not cancelled) and `cleanUp()`
was invoked zero times, because the `throw` at `healthProviderManager.ts`
111-118 exits the function before `stopPollingForProvider` and
`provider?.cleanUp()` run.  So teardown is not best-effort. -/
theorem disable_cleanup_counterexample :
    disableProvider
        (⟨[⟨"a", "A", 10, [.sleep], true, 0, true, true,
            fun _ => .ok ⟨[], .category, 0⟩, .ok .ok, .ok⟩],
          [("a", .failUntyped)], ["a-sleep"]⟩ : ManagerState Unit) "a" =
      (⟨[⟨"a", "A", 10, [.sleep], true, 0, true, true,
          fun _ => .ok ⟨[], .category, 0⟩, .ok .ok, .ok⟩],
        [("a", .failUntyped)], ["a-sleep"]⟩, some (.typed .CLEANUP_ERROR), 0) := rfl

/-- C6 (amended): if invoking the stored realtime cleanup handle fails with an
untyped error, `disableProvider` raises `CLEANUP_ERROR` and stops there — the
polling timers for the id are NOT cancelled and the source's `cleanUp()` is
NOT called (the state is returned unchanged with zero `cleanUp()`
invocations); for a registered source with no active realtime subscription
(and a normally-returning `cleanUp()`), disable cancels the id's polling
timers, invokes `cleanUp()` exactly once and raises no error. -/
theorem disable_cleanup_failure_behavior (α : Type) :
    (∀ (st : ManagerState α) (pid : String),
        lookupKey pid st.subscriptions = some .failUntyped →
        disableProvider st pid = (st, some (.typed .CLEANUP_ERROR), 0)) ∧
    (∀ (st : ManagerState α) (pid : String) (p : Provider α),
        lookupKey pid st.subscriptions = none →
        st.providers.find? (fun q => q.id == pid) = some p →
        p.cleanUpOutcome = .ok →
        disableProvider st pid =
          ({ st with pollingKeys := stopPollingForProvider st.pollingKeys pid },
            none, 1)) := by
  constructor
  · intro st pid h
    simp [disableProvider, h]
  · intro st pid p hsub hfind hclean
    simp [disableProvider, hsub, disableTail, hfind, hclean]

/-- Witness for C6 (amended): disabling registered provider `"a"` with no
stored subscription removes exactly its polling key, calls `cleanUp()` once
and raises no error. -/
theorem disable_cleanup_failure_behavior_witness :
    disableProvider
        (⟨[⟨"a", "A", 10, [.sleep], true, 0, true, true,
            fun _ => .ok ⟨[], .category, 0⟩, .ok .ok, .ok⟩],
          [], ["a-sleep", "b-sleep"]⟩ : ManagerState Unit) "a" =
      (⟨[⟨"a", "A", 10, [.sleep], true, 0, true, true,
          fun _ => .ok ⟨[], .category, 0⟩, .ok .ok, .ok⟩],
        [], ["b-sleep"]⟩, none, 1) := by
  have h := (disable_cleanup_failure_behavior Unit).2
      (⟨[⟨"a", "A", 10, [.sleep], true, 0, true, true,
          fun _ => .ok ⟨[], .category, 0⟩, .ok .ok, .ok⟩],
        [], ["a-sleep", "b-sleep"]⟩ : ManagerState Unit) "a"
      ⟨"a", "A", 10, [.sleep], true, 0, true, true,
        fun _ => .ok ⟨[], .category, 0⟩, .ok .ok, .ok⟩ rfl rfl rfl
  exact h

/-- Counterexample to C7 as stated: registering an available provider whose id
`"a"` is already registered fails with the plain untyped
`Error('Provider with id ... is already registered')` — not with a typed
domain error (`ErrKind`, the kind list of `createTrackleError('HealthData',
[...])`, does not even contain a `DUPLICATE_PROVIDER` kind) — and leaves the
previously registered entry in place. -/
theorem register_duplicate_counterexample :
    registerProvider
        (⟨[⟨"a", "first", 10, [.sleep], true, 0, false, true,
            fun _ => .ok ⟨[], .category, 0⟩, .ok .ok, .ok⟩], [], []⟩ : ManagerState Unit)
        ⟨"a", "second", 7, [.stress], false, 0, false, true,
          fun _ => .ok ⟨[], .category, 0⟩, .ok .ok, .ok⟩ =
      (⟨[⟨"a", "first", 10, [.sleep], true, 0, false, true,
          fun _ => .ok ⟨[], .category, 0⟩, .ok .ok, .ok⟩], [], []⟩,
        some .untyped) := rfl

/-- C7 (amended): `registerProvider` first checks availability — every
unavailable source is skipped without error and the registry is unchanged; an
available source whose id is already registered fails with an untyped plain
`Error` (there is no typed `DUPLICATE_PROVIDER` domain error in the error
taxonomy) and the existing entry is not replaced (the state is returned
unchanged). -/
theorem register_availability_duplicate (α : Type) :
    (∀ (st : ManagerState α) (p : Provider α), p.available = false →
        registerProvider st p = (st, none)) ∧
    (∀ (st : ManagerState α) (p : Provider α), p.available = true →
        (findProvider st p.id).isSome = true →
        registerProvider st p = (st, some .untyped)) := by
  constructor
  · intro st p h
    simp [registerProvider, h]
  · intro st p h hdup
    simp [registerProvider, h, hdup]

/-- Witness for C7 (amended): a concrete duplicate registration fails untyped
and leaves the registry unchanged. -/
theorem register_availability_duplicate_witness :
    registerProvider
        (⟨[⟨"a", "first", 10, [.sleep], true, 0, false, true,
            fun _ => .ok ⟨[], .category, 0⟩, .ok .ok, .ok⟩], [], []⟩ : ManagerState Unit)
        ⟨"a", "again", 1, [], false, 0, false, true,
          fun _ => .ok ⟨[], .category, 0⟩, .ok .ok, .ok⟩ =
      (⟨[⟨"a", "first", 10, [.sleep], true, 0, false, true,
          fun _ => .ok ⟨[], .category, 0⟩, .ok .ok, .ok⟩], [], []⟩,
        some .untyped) := by
  have h := (register_availability_duplicate Unit).2
      (⟨[⟨"a", "first", 10, [.sleep], true, 0, false, true,
          fun _ => .ok ⟨[], .category, 0⟩, .ok .ok, .ok⟩], [], []⟩ : ManagerState Unit)
      ⟨"a", "again", 1, [], false, 0, false, true,
        fun _ => .ok ⟨[], .category, 0⟩, .ok .ok, .ok⟩ rfl rfl
  exact h

/-- Counterexample to C8 as stated: with provider `"x"` (supports sleep, fetch
throws untyped) and provider `"y"` (supports stress, fetch succeeds with one
point), both enabled, consolidating `[sleep, stress]` fails entirely with
`DATA_FETCH_ERROR` — stress is not consolidated even though consolidating
`[stress]` alone succeeds — and `syncHealthData` then returns the error with
empty `healthData`.  So a consolidation failure for one metric does abort the
other requested metrics. -/
theorem consolidate_abort_counterexample :
    consolidateHealthMetrics
        (⟨[⟨"x", "X", 5, [.sleep], true, 0, false, true,
            (fun m => if m = .sleep then .error .untyped else .ok ⟨[], .category, 0⟩),
            .ok .ok, .ok⟩,
          ⟨"y", "Y", 3, [.stress], true, 0, false, true,
            (fun _ => .ok ⟨[⟨0, 1, "z", ()⟩], .category, 0⟩), .ok .ok, .ok⟩],
          [], []⟩ : ManagerState Unit)
        ["x", "y"] [.sleep, .stress] 0 = .error (.typed .DATA_FETCH_ERROR) ∧
    consolidateHealthMetrics
        (⟨[⟨"x", "X", 5, [.sleep], true, 0, false, true,
            (fun m => if m = .sleep then .error .untyped else .ok ⟨[], .category, 0⟩),
            .ok .ok, .ok⟩,
          ⟨"y", "Y", 3, [.stress], true, 0, false, true,
            (fun _ => .ok ⟨[⟨0, 1, "z", ()⟩], .category, 0⟩), .ok .ok, .ok⟩],
          [], []⟩ : ManagerState Unit)
        ["x", "y"] [.stress] 0 =
      .ok [(.stress, ⟨[⟨0, 1, "y", ()⟩], .category, 0⟩)] ∧
    (syncHealthData
        (⟨[⟨"x", "X", 5, [.sleep], true, 0, false, true,
            (fun m => if m = .sleep then .error .untyped else .ok ⟨[], .category, 0⟩),
            .ok .ok, .ok⟩,
          ⟨"y", "Y", 3, [.stress], true, 0, false, true,
            (fun _ => .ok ⟨[⟨0, 1, "z", ()⟩], .category, 0⟩), .ok .ok, .ok⟩],
          [], []⟩ : ManagerState Unit)
        ["x", "y"] [.sleep, .stress] 5 0).healthData = [] :=
  ⟨rfl, rfl, rfl⟩

/-- C8 (amended): in one bulk consolidation call, a failure while collecting
one metric's provider data aborts the whole call — `consolidateHealthMetrics`
propagates the error regardless of which metrics remain, and `syncHealthData`
then returns that error with empty `healthData` (no metric of the call is
returned), keeping the old `lastSync`. -/
theorem consolidate_error_aborts_all (α : Type) :
    (∀ (st : ManagerState α) (enabled : List String) (m : Metric) (ms : List Metric)
        (now : Int) (t : Thrown),
        collectPoints (getProvidersForMetric st enabled m) m = .error t →
        consolidateHealthMetrics st enabled (m :: ms) now = .error t) ∧
    (∀ (st : ManagerState α) (enabled : List String) (metrics : List Metric)
        (lastSync now : Int) (t : Thrown),
        consolidateHealthMetrics st enabled metrics now = .error t →
        syncHealthData st enabled metrics lastSync now =
          { error := some t, isLoading := false, healthData := [],
            lastSync := lastSync }) :=
  ⟨fun _ _ _ _ _ _ h => consolidate_abort h, fun _ _ _ _ _ _ h => sync_error_empty h⟩

/-- Witness for C8 (amended): the failing sleep fetch aborts a `[sleep,
illness]` consolidation no matter that illness was still pending. -/
theorem consolidate_error_aborts_all_witness :
    consolidateHealthMetrics
        (⟨[⟨"x", "X", 5, [.sleep], true, 0, false, true,
            (fun m => if m = .sleep then .error .untyped else .ok ⟨[], .category, 0⟩),
            .ok .ok, .ok⟩],
          [], []⟩ : ManagerState Unit)
        ["x"] [.sleep, .illness] 0 = .error (.typed .DATA_FETCH_ERROR) := by
  have h := (consolidate_error_aborts_all Unit).1
      (⟨[⟨"x", "X", 5, [.sleep], true, 0, false, true,
          (fun m => if m = .sleep then .error .untyped else .ok ⟨[], .category, 0⟩),
          .ok .ok, .ok⟩],
        [], []⟩ : ManagerState Unit)
      ["x"] .sleep [.illness] 0 (.typed .DATA_FETCH_ERROR) rfl
  exact h

/-- Counterexample to C9 as stated: the realtime stream callback installed by
`initializeProviderStream` forwards a pushed sample with an empty value array
to the listeners unchanged — there is no `hasValidData` check on the realtime
path (`healthProviderManager.ts` 206-209), so an empty Sample is forwarded. -/
theorem empty_sample_realtime_counterexample :
    realtimeDeliver (⟨[], .category, 0⟩ : Sample Unit) =
      some (⟨[], .category, 0⟩ : Sample Unit) ∧
    (⟨[], .category, 0⟩ : Sample Unit).value = [] :=
  ⟨rfl, rfl⟩

/-- C9 (amended): a polling tick notifies listeners only when the fetched
sample has a non-empty value array, and bulk consolidation omits a metric
entirely when its merged result has no points — but the realtime push path
forwards every pushed sample unconditionally, including one with an empty
value array. -/
theorem empty_sample_rules (α : Type) :
    (∀ (r : Except Thrown (Sample α)) (s : Sample α),
        pollTick r = .ok (some s) → s.value ≠ []) ∧
    (∀ s : Sample α, realtimeDeliver s = some s) ∧
    (∀ (st : ManagerState α) (enabled : List String) (metrics : List Metric)
        (now : Int) (out : List (Metric × Sample α)) (m : Metric) (smp : Sample α),
        consolidateHealthMetrics st enabled metrics now = .ok out →
        (m, smp) ∈ out → smp.value ≠ []) := by
  refine ⟨?_, fun s => rfl,
    fun st e ms now out m smp h hm => consolidate_values_nonempty h hm⟩
  intro r s h
  cases r with
  | ok d =>
    simp only [pollTick] at h
    split at h
    · rename_i hv
      simp only [Except.ok.injEq, Option.some.injEq] at h
      intro hcon
      rw [h] at hv
      simp [hasValidData, hcon] at hv
    · simp at h
  | error t => cases t <;> simp [pollTick] at h

/-- Witness for C9 (amended): a tick that fetched one point notifies, and the
notified sample is non-empty. -/
theorem empty_sample_rules_witness :
    pollTick (Except.ok (⟨[⟨0, 1, "a", ()⟩], .category, 0⟩ : Sample Unit)) =
      .ok (some (⟨[⟨0, 1, "a", ()⟩], .category, 0⟩ : Sample Unit)) ∧
    (⟨[⟨0, 1, "a", ()⟩], .category, 0⟩ : Sample Unit).value ≠ [] :=
  ⟨rfl,
    (empty_sample_rules Unit).1
      (Except.ok (⟨[⟨0, 1, "a", ()⟩], .category, 0⟩ : Sample Unit))
      (⟨[⟨0, 1, "a", ()⟩], .category, 0⟩ : Sample Unit) rfl⟩

/-- C10: the incremental merge path builds its priority lookup from every
registered provider (`getAllProviders`), so whenever all points of the
existing/new pair carry the id of some registered provider, `mergeMetricData`
succeeds — it never raises `PRIORITY_ERROR`, even when some of those sources
are disabled; whereas the bulk path builds its lookup only from the enabled
providers supporting the metric (`getProvidersForMetric`), under which merging
the very same points can raise `PRIORITY_ERROR` (shown concretely: providers
`"a"` (priority 10) and `"b"` (priority 5) are registered, only `"a"` is
enabled; the incremental merge of an `"a"` point with an overlapping `"b"`
point succeeds and keeps the `"a"` point, while the bulk-style merge of the
same two points fails with `PRIORITY_ERROR`). -/
theorem incremental_vs_bulk_priorities (α : Type) :
    (∀ (st : ManagerState α) (ex nw : Sample α) (now : Int),
        (∀ pt ∈ ex.value ++ nw.value, pt.source ∈ st.providers.map (fun p => p.id)) →
        ∃ s, mergeMetricData st (some ex) nw now = .ok s) ∧
    (mergeMetricData
        (⟨[⟨"a", "A", 10, [.sleep], true, 0, false, true,
            (fun _ => .ok ⟨[], .category, 0⟩), .ok .ok, .ok⟩,
          ⟨"b", "B", 5, [.sleep], true, 0, false, true,
            (fun _ => .ok ⟨[], .category, 0⟩), .ok .ok, .ok⟩],
          [], []⟩ : ManagerState Unit)
        (some ⟨[⟨0, 10, "a", ()⟩], .category, 0⟩)
        ⟨[⟨5, 20, "b", ()⟩], .category, 0⟩ 0 =
        .ok ⟨[⟨0, 10, "a", ()⟩], .category, 0⟩ ∧
      mergeDataPoints
        (prioritiesOf (getProvidersForMetric
          (⟨[⟨"a", "A", 10, [.sleep], true, 0, false, true,
              (fun _ => .ok ⟨[], .category, 0⟩), .ok .ok, .ok⟩,
            ⟨"b", "B", 5, [.sleep], true, 0, false, true,
              (fun _ => .ok ⟨[], .category, 0⟩), .ok .ok, .ok⟩],
            [], []⟩ : ManagerState Unit) ["a"] .sleep))
        ([⟨0, 10, "a", ()⟩, ⟨5, 20, "b", ()⟩] : List (DataPoint Unit)) =
        .error (.typed .PRIORITY_ERROR)) :=
  ⟨fun _ _ _ _ h => mergeMetricData_ok_of_registered h, rfl, rfl⟩

/-- Witness for C10: the universally quantified half applied to the concrete
two-provider state — the incremental merge succeeds because both points'
sources are registered (even though `"b"` is not enabled). -/
theorem incremental_vs_bulk_priorities_witness :
    ∃ s,
      mergeMetricData
        (⟨[⟨"a", "A", 10, [.sleep], true, 0, false, true,
            (fun _ => .ok ⟨[], .category, 0⟩), .ok .ok, .ok⟩,
          ⟨"b", "B", 5, [.sleep], true, 0, false, true,
            (fun _ => .ok ⟨[], .category, 0⟩), .ok .ok, .ok⟩],
          [], []⟩ : ManagerState Unit)
        (some ⟨[⟨0, 10, "a", ()⟩], .category, 0⟩)
        ⟨[⟨5, 20, "b", ()⟩], .category, 0⟩ 0 = .ok s :=
  (incremental_vs_bulk_priorities Unit).1
    (⟨[⟨"a", "A", 10, [.sleep], true, 0, false, true,
        (fun _ => .ok ⟨[], .category, 0⟩), .ok .ok, .ok⟩,
      ⟨"b", "B", 5, [.sleep], true, 0, false, true,
        (fun _ => .ok ⟨[], .category, 0⟩), .ok .ok, .ok⟩],
      [], []⟩ : ManagerState Unit)
    (⟨[⟨0, 10, "a", ()⟩], .category, 0⟩ : Sample Unit)
    (⟨[⟨5, 20, "b", ()⟩], .category, 0⟩ : Sample Unit) 0 (by decide)

end HealthData
